import Mathlib

/-!
Shallow embedding of the nsrvm supervisor (src/nsrvm.mjs, src/nsrvm-service.mjs,
src/nsrvm-api-client.js).  JavaScript objects used as string-keyed maps are
modelled as association lists in insertion order; `aset` overwrites an existing
key in place and appends a fresh key, matching JS property-update semantics.
Randomness (crypto.randomBytes) is modelled by a fresh-key supply threaded
through the supervisor state.
-/

/-- Lookup of a key in an insertion-ordered association list (JS property read). -/
def alookup {V : Type} (m : List (String × V)) (k : String) : Option V :=
  match m with
  | [] => none
  | (k', v) :: rest => if k' = k then some v else alookup rest k

/-- Property write: overwrite the value at an existing key, append a new key. -/
def aset {V : Type} (m : List (String × V)) (k : String) (v : V) : List (String × V) :=
  if m.any (fun p => p.1 = k) then m.map (fun p => if p.1 = k then (k, v) else p)
  else m ++ [(k, v)]

/-- Property delete (JS `delete obj[k]`). -/
def aerase {V : Type} (m : List (String × V)) (k : String) : List (String × V) :=
  m.filter (fun p => p.1 ≠ k)

/-- One external-command hook descriptor (`runBeforeStart` / `runAfterExit` entry). -/
structure Hook where
  app : String
  args : List String
  waitForClose : Bool
  runTimeout : Nat
deriving DecidableEq, Repr

/-- A JavaScript value, as far as validateAPI / setPublicApi inspect one. -/
inductive JsVal where
  | undef : JsVal
  | null : JsVal
  | bool (b : Bool) : JsVal
  | num (n : Int) : JsVal
  | str (s : String) : JsVal
  | arr (xs : List JsVal) : JsVal
  | obj (fields : List (String × JsVal)) : JsVal

/-- ServiceConfig (typedef in src/nsrvm.mjs): one desired service. -/
structure ServiceConfig where
  name : String
  modulePath : Option String := none
  apiPort : Int
  allowedAPI : List String
  parent : Option String := none
  maxChilds : Option Nat := none
  runAfterExit : Option (List Hook) := none
  waitAfterExit : Int := 0
deriving DecidableEq, Repr

/-- Service handle (class NsrvmService): supervisor-side record of one child. -/
structure Handle where
  config : ServiceConfig
  dead : Bool
  hasProcess : Bool
  restartTimer : Option Nat := none
  api : JsVal := .arr []

/-! ### Request-id correlation counter (src/nsrvm-api-client.js, NSRVMApiClient) -/

/-- Constructor field `this.lastReqId = 1`: the counter starts at 1. -/
def NSRVMApiClient.initialLastReqId : Nat := 1

/-- Method `getReqId`: pre-increment `lastReqId`, reset to 1 past 0xffffffff,
return the new counter value.  Result: (new `lastReqId`, issued id); the two
components are equal because the method returns `this.lastReqId` itself. -/
def NSRVMApiClient.getReqId (lastReqId : Nat) : Nat × Nat :=
  let next := lastReqId + 1
  let next := if next > 0xffffffff then 1 else next
  (next, next)

/-- Sequence of ids a client issues, starting from the constructor state. -/
def NSRVMApiClient.reqIdStream : Nat → Nat
  | 0 => (NSRVMApiClient.getReqId NSRVMApiClient.initialLastReqId).2
  | n + 1 => (NSRVMApiClient.getReqId (NSRVMApiClient.reqIdStream n)).2

/-! ### Public-API validation (src/nsrvm-service.mjs, static validateAPI / setPublicApi) -/

/-- Property read on a JS object (first binding of the key, as JS keys are unique). -/
def getField (fields : List (String × JsVal)) (k : String) : Option JsVal :=
  match fields with
  | [] => none
  | (k', v) :: rest => if k' = k then some v else getField rest k

/-- Body of the `api.every(...)` callback in validateAPI: the entry is an object
with exactly two own keys, a string `name` of length 1..32 and a string
`description` of length 0..128. -/
def NsrvmService.validMethod (m : JsVal) : Bool :=
  match m with
  | .obj fields =>
    fields.length = 2 &&
    (match getField fields "name" with
     | some (.str s) => 0 < s.length && s.length ≤ 32
     | _ => false) &&
    (match getField fields "description" with
     | some (.str s) => s.length ≤ 128
     | _ => false)
  | _ => false

/-- Static `validateAPI`: an array of at most 16 entries, every entry valid. -/
def NsrvmService.validateAPI (api : JsVal) : Bool :=
  match api with
  | .arr methods => methods.length ≤ 16 && methods.all NsrvmService.validMethod
  | _ => false

/-- Method `setPublicApi`: replace `this.api` only when validateAPI accepts. -/
def NsrvmService.setPublicApi (h : Handle) (api : JsVal) : Handle :=
  if NsrvmService.validateAPI api then { h with api := api } else h

/-! ### Hook runner (src/nsrvm-service.mjs, method run) -/

/-- Constant baked into the kill-timer `setTimeout` call inside `run`. -/
def NsrvmService.KILL_DELAY_MS : Nat := 10000

/-- Observable shape of one `run(app, args, waitForClose, runTimeout)` call:
whether (and for how long) a kill timer is armed, and what the timer handler
does when it fires. -/
structure RunEffect where
  killTimerMs : Option Nat
  timerLogsKill : Bool
  timerResolves : Bool
  resolvesBeforeClose : Bool
deriving DecidableEq, Repr

/-- Method `run`: spawn the command; when `runTimeout` is truthy arm a kill
timer whose delay is the literal 10000, whose handler logs the kill, kills the
child and resolves the promise; when `waitForClose` is false resolve at once. -/
def NsrvmService.run (_app : String) (_args : List String) (waitForClose : Bool)
    (runTimeout : Nat) : RunEffect :=
  { killTimerMs := if runTimeout ≠ 0 then some NsrvmService.KILL_DELAY_MS else none
  , timerLogsKill := true
  , timerResolves := true
  , resolvesBeforeClose := !waitForClose }

/-! ### Exit / stop lifecycle (src/nsrvm-service.mjs, onExit and stop) -/

/-- Constant RESTART_TIMEOUT. -/
def RESTART_TIMEOUT : Nat := 3000

/-- Constant STOP_TIMEOUT. -/
def STOP_TIMEOUT : Nat := 5000

/-- One awaited step of the onExit handler, in program order. -/
inductive LcEvent where
  | runHook (h : Hook) : LcEvent
  | wait (ms : Int) : LcEvent
  | scheduleRestart (ms : Nat) : LcEvent
deriving DecidableEq, Repr

/-- Handler `onExit(code)`: mark the handle dead and detached, run the
`runAfterExit` hooks in order followed by the `waitAfterExit` pause (both only
when `runAfterExit` is set), then, only for a non-zero code, clear and re-arm
the restart timer with RESTART_TIMEOUT.  Returns the new handle and the ordered
trace of awaited steps. -/
def NsrvmService.onExit (h : Handle) (code : Int) : Handle × List LcEvent :=
  let h1 : Handle := { h with dead := true, hasProcess := false }
  let evs : List LcEvent :=
    match h.config.runAfterExit with
    | some hooks =>
      hooks.map LcEvent.runHook ++
        (if h.config.waitAfterExit > 0 then [LcEvent.wait h.config.waitAfterExit] else [])
    | none => []
  if code ≠ 0 then
    ({ h1 with restartTimer := some RESTART_TIMEOUT }, evs ++ [LcEvent.scheduleRestart RESTART_TIMEOUT])
  else
    (h1, evs)

/-- Method `stop()`: first `clearTimeout(this.restartTimeoutId)`; then either
the handle is already dead/detached and is normalised, or listeners are
detached, a STOP_TIMEOUT kill timer escalates to SIGKILL, and the exit event
completes the transition — both branches end dead with no process and no
pending restart. -/
def NsrvmService.stop (h : Handle) : Handle :=
  let h := { h with restartTimer := none }
  if h.dead || !h.hasProcess then
    { h with hasProcess := false, dead := true }
  else
    { h with dead := true, hasProcess := false }

/-! ### Supervisor state (class NSRVM, src/nsrvm.mjs) -/

/-- Supervisor state.  `freshKey`/`rng` stand in for crypto.randomBytes: the
n-th random key minted during the run is `freshKey n`.  `moduleResolvable`
stands in for the filesystem probing of resolveModulePath: whether the probe
for the given name yields a non-empty path. -/
structure NsrvmState where
  services : List (String × Handle)
  childs : List (String × List ServiceConfig)
  apiKeys : List (String × String)
  configServices : List (String × ServiceConfig)
  freshKey : Nat → String
  rng : Nat
  moduleResolvable : String → Bool

/-- Method `patchConfig`: default an absent `maxChilds` to 0. -/
def NSRVM.patchConfig (c : ServiceConfig) : ServiceConfig :=
  { c with maxChilds := some (c.maxChilds.getD 0) }

/-- Static `checkPermissions(service, target)`: membership of the target in the
caller's `allowedAPI`. -/
def NSRVM.checkPermissions (service : Handle) (target : String) : Bool :=
  service.config.allowedAPI.contains target

/-- Method `generateAPIKeys`: rebuild `apiKeys` with a fresh random key for
every name currently in `config.services` (called once, from init). -/
def NSRVM.generateAPIKeys (st : NsrvmState) : NsrvmState :=
  let gen := st.configServices.foldl
    (fun (acc : List (String × String) × Nat) p =>
      (aset acc.1 p.1 (st.freshKey acc.2), acc.2 + 1))
    ([], st.rng)
  { st with apiKeys := gen.1, rng := gen.2 }

/-- Method `assignChilds(service, configs)`: for each config in order, set its
`parent` to the service's name, insert it into the desired map
`config.services`, and append its name to the service's `allowedAPI` when
missing.  Returns the updated config list (the JS loop mutates the config
objects in place), the updated `allowedAPI` and the updated desired map. -/
def NSRVM.assignChildsStep (parentName : String)
    (acc : List ServiceConfig × List String × List (String × ServiceConfig))
    (config : ServiceConfig) :
    List ServiceConfig × List String × List (String × ServiceConfig) :=
  let config := { config with parent := some parentName }
  (acc.1 ++ [config],
   (if acc.2.1.contains config.name then acc.2.1 else acc.2.1 ++ [config.name]),
   aset acc.2.2 config.name config)

def NSRVM.assignChilds (parentName : String) (allowed : List String)
    (configServices : List (String × ServiceConfig)) (configs : List ServiceConfig) :
    List ServiceConfig × List String × List (String × ServiceConfig) :=
  configs.foldl (NSRVM.assignChildsStep parentName) ([], allowed, configServices)

/-- Method `stopService(serviceName)`: remove the handle from `services` (its
`stop()` is awaited on the removed handle and does not touch supervisor maps). -/
def NSRVM.stopService (st : NsrvmState) (serviceName : String) : NsrvmState :=
  match alookup st.services serviceName with
  | some _ => { st with services := aerase st.services serviceName }
  | none => st

/-- Tail of startService after the previous handle was dropped: resolve the
module path, giving up when the probe fails; create a fresh live handle; when
sub-service configs are registered for this name, re-attach them through
assignChilds; then start the child. -/
def NSRVM.startResolved (st1 : NsrvmState) (c : ServiceConfig) : NsrvmState :=
  if !st1.moduleResolvable (c.modulePath.getD c.name) then st1
  else
    let h : Handle := { config := c, dead := false, hasProcess := true }
    match alookup st1.childs c.name with
    | some childs =>
      let r := NSRVM.assignChilds c.name h.config.allowedAPI st1.configServices childs
      let h := { h with config := { h.config with allowedAPI := r.2.1 } }
      { st1 with
        services := aset st1.services c.name h
        childs := aset st1.childs c.name r.1
        configServices := r.2.2 }
    | none => { st1 with services := aset st1.services c.name h }

/-- Method `startService(serviceConfig)`: stop and drop any previous handle of
the same name, then continue with module resolution and spawning. -/
def NSRVM.startService (st : NsrvmState) (c : ServiceConfig) : NsrvmState :=
  NSRVM.startResolved
    (match alookup st.services c.name with
     | some _ => { st with services := aerase st.services c.name }
     | none => st)
    c

/-- Accumulator of the config-refresh loop of runServices. -/
structure UpdAcc where
  svcs : List (String × Handle)
  keys : List (String × String)
  rng : Nat
  toStart : List String

/-- One iteration of the config-refresh loop of runServices: mint an api key
for a name absent from the registry, overwrite the config of an existing
handle in place, and mark the name for start when there is no handle or the
handle is dead. -/
def NSRVM.updStep (fresh : Nat → String) (acc : UpdAcc) (p : String × ServiceConfig) : UpdAcc :=
  let c := p.2
  let (keys, rng) :=
    if (alookup acc.keys c.name).isNone then (aset acc.keys c.name (fresh acc.rng), acc.rng + 1)
    else (acc.keys, acc.rng)
  let svc? := alookup acc.svcs c.name
  let svcs :=
    match svc? with
    | some h => aset acc.svcs c.name { h with config := c }
    | none => acc.svcs
  let toStart :=
    match svc? with
    | none => acc.toStart ++ [c.name]
    | some h => if h.dead then acc.toStart ++ [c.name] else acc.toStart
  { svcs := svcs, keys := keys, rng := rng, toStart := toStart }

/-- Result of one runServices pass: the new state, the names passed to
stopService in the stop phase, and the names passed to startService in the
start phase. -/
structure RunResult where
  st : NsrvmState
  stopped : List String
  started : List String

/-- Body of the start-phase `toStart.map(serviceName => this.startService(
this.config.services[serviceName]))`, one name at a time. -/
def NSRVM.startByName (s : NsrvmState) (n : String) : NsrvmState :=
  match alookup s.configServices n with
  | some c => NSRVM.startService s c
  | none => s

/-- Stop-phase filter callback of runServices: a live handle needs a stop when
its name is absent from the desired map or its apiPort differs. -/
def NSRVM.needsStop (st : NsrvmState) (p : String × Handle) : Bool :=
  match alookup st.configServices p.2.config.name with
  | none => true
  | some c => p.2.config.apiPort ≠ c.apiPort

/-- Method `runServices`: stop every live handle whose name is missing from the
desired map or whose apiPort differs; refresh configs and mint missing api
keys over the desired map in order; start every desired service that has no
live handle or whose handle is dead. -/
def NSRVM.runServices (st : NsrvmState) : RunResult :=
  let stopNames := (st.services.filter (NSRVM.needsStop st)).map (fun p => p.2.config.name)
  let st1 := stopNames.foldl NSRVM.stopService st
  let acc := st1.configServices.foldl (NSRVM.updStep st1.freshKey)
    { svcs := st1.services, keys := st1.apiKeys, rng := st1.rng, toStart := [] }
  let st2 := { st1 with services := acc.svcs, apiKeys := acc.keys, rng := acc.rng }
  let st3 := acc.toStart.foldl NSRVM.startByName st2
  { st := st3, stopped := stopNames, started := acc.toStart }

/-- Method `setChildServices(parent, configs)` of NSRVM: fetch (or create) the
stored child list; delete every stored config whose name is absent from the
new list from the desired map, erasing its name from the parent's
`allowedAPI`; append each incoming config (normalised by patchConfig) to the
stored list unless a config of that name exists with a different parent; run
assignChilds over the resulting list; store it; reconcile.  Returns the
updated parent handle and the new state together with the reconciliation
result. -/
def NSRVM.setChildServices (st : NsrvmState) (parent : Handle)
    (configs : List ServiceConfig) : Handle × RunResult :=
  let childs := (alookup st.childs parent.config.name).getD []
  let removed := childs.foldl
    (fun (acc : List (String × ServiceConfig) × List String) oldConfig =>
      if configs.any (fun newConfig => newConfig.name = oldConfig.name) then acc
      else (aerase acc.1 oldConfig.name, acc.2.erase oldConfig.name))
    (st.configServices, parent.config.allowedAPI)
  let childs2 := configs.foldl
    (fun (acc : List ServiceConfig) config =>
      let config := NSRVM.patchConfig config
      match alookup removed.1 config.name with
      | some prevConfig =>
        if prevConfig.parent ≠ some parent.config.name then acc else acc ++ [config]
      | none => acc ++ [config])
    childs
  let r := NSRVM.assignChilds parent.config.name removed.2 removed.1 childs2
  let parent' := { parent with config := { parent.config with allowedAPI := r.2.1 } }
  let st' := { st with
    configServices := r.2.2
    childs := aset st.childs parent.config.name r.1
    services :=
      match alookup st.services parent.config.name with
      | some _ => aset st.services parent.config.name parent'
      | none => st.services }
  (parent', NSRVM.runServices st')

/-! ### Control-plane router (NSRVM.query and helpers) and the message layer -/

/-- An inbound IPC message from a child, as far as the handlers inspect it.
Absent (`undefined`) fields are `none`. -/
structure Msg where
  cmd : Option String := none
  method : Option String := none
  serviceName : Option String := none
  api : JsVal := .undef
  childConfigs : Option (List ServiceConfig) := none
  reqId : Nat := 0

/-- One entry of the getServicesList reply. -/
structure ServiceListEntry where
  serviceName : String
  api : JsVal
  status : Bool

/-- A non-undefined result value of NSRVM.query. -/
inductive QueryResult where
  | apiKey (serviceName : String) (apiPort : Option Int) (key : String) : QueryResult
  | statusTrue : QueryResult
  | servicesList (services : List ServiceListEntry) : QueryResult

/-- Outcome of one NSRVM.query call: the result value (none = undefined), the
log lines it emitted, the state it left behind, and whether it reached
`process.exit` via restartServer. -/
structure QueryOut where
  res : Option QueryResult
  log : List String
  st : NsrvmState
  exited : Bool

/-- Method `getApiKeyQuery(serviceName)`: look up key and config; a missing (or
empty, JS falsiness) key or missing config yields the empty-key result and a
log line. -/
def NSRVM.getApiKeyQuery (st : NsrvmState) (serviceName : String) :
    QueryResult × List String :=
  let apiKey := alookup st.apiKeys serviceName
  let serviceConfig := alookup st.configServices serviceName
  if apiKey = none ∨ apiKey = some "" ∨ serviceConfig = none then
    (.apiKey serviceName none "",
     ["[NSRVM] API key or config for " ++ serviceName ++ " not found"])
  else
    (.apiKey serviceName (serviceConfig.map ServiceConfig.apiPort) ((apiKey).getD ""), [])

/-- Method `getServicesList`: one entry per desired service, with the live
handle's advertised api (or an empty array) and its presence as status. -/
def NSRVM.getServicesList (st : NsrvmState) : QueryResult :=
  .servicesList (st.configServices.map (fun p =>
    match alookup st.services p.1 with
    | some h => { serviceName := p.1, api := h.api, status := true }
    | none => { serviceName := p.1, api := JsVal.arr [], status := false }))

/-- Method `restartServiceQuery(serviceName)`: start the service when its
config is desired, otherwise log and stop it. -/
def NSRVM.restartServiceQuery (st : NsrvmState) (serviceName : Option String) :
    NsrvmState × List String :=
  let log0 := ["[NSRVM] restartServiceQuery " ++ (serviceName.getD "undefined")]
  match serviceName.bind (alookup st.configServices) with
  | some serviceConfig => (NSRVM.startService st serviceConfig, log0)
  | none =>
    (match serviceName with
     | some n => NSRVM.stopService st n
     | none => st,
     log0 ++ ["[NSRVM] Service config not found"])

/-- Method `startServiceQuery(serviceName)`: start only when the config is
desired and there is no live non-dead handle. -/
def NSRVM.startServiceQuery (st : NsrvmState) (serviceName : Option String) : NsrvmState :=
  match serviceName.bind (alookup st.configServices) with
  | some serviceConfig =>
    match serviceName.bind (alookup st.services) with
    | some h => if h.dead then NSRVM.startService st serviceConfig else st
    | none => NSRVM.startService st serviceConfig
  | none => st

/-- Method `restartServer`: clear `services` and the config snapshot, stop the
snapshotted handles, exit the supervisor process with code 0. -/
def NSRVM.restartServer (st : NsrvmState) : NsrvmState :=
  { st with services := [], configServices := [] }

/-- Method `query(service, msg)`: dispatch on `msg.method`; each branch is
guarded by checkPermissions — `getApiKey` against the named target (an absent
name is never a member of `allowedAPI`), the five supervisor operations
against the literal "nsrvm".  A branch whose guard fails falls through and
the method returns undefined; only the getApiKey guard logs its denial. -/
def NSRVM.query (st : NsrvmState) (service : Handle) (msg : Msg) : QueryOut :=
  if msg.method = some "getApiKey" then
    if (match msg.serviceName with
        | some t => NSRVM.checkPermissions service t
        | none => false) then
      let r := NSRVM.getApiKeyQuery st (msg.serviceName.getD "")
      { res := some r.1, log := r.2, st := st, exited := false }
    else
      { res := none
      , log := ["[NSRVM] getApiKeyQuery by " ++ service.config.name ++ " for "
          ++ (msg.serviceName.getD "undefined") ++ " failed: access denied"]
      , st := st, exited := false }
  else if msg.method = some "restartService" then
    if NSRVM.checkPermissions service "nsrvm" then
      let r := NSRVM.restartServiceQuery st msg.serviceName
      { res := some .statusTrue, log := r.2, st := r.1, exited := false }
    else
      { res := none, log := [], st := st, exited := false }
  else if msg.method = some "stopService" then
    if NSRVM.checkPermissions service "nsrvm" then
      { res := some .statusTrue
      , log := ["[NSRVM] Stopping " ++ (msg.serviceName.getD "undefined")]
      , st := match msg.serviceName with
              | some n => NSRVM.stopService st n
              | none => st
      , exited := false }
    else
      { res := none, log := [], st := st, exited := false }
  else if msg.method = some "startService" then
    if NSRVM.checkPermissions service "nsrvm" then
      { res := some .statusTrue
      , log := ["[NSRVM] startServiceQuery " ++ (msg.serviceName.getD "undefined")]
      , st := NSRVM.startServiceQuery st msg.serviceName
      , exited := false }
    else
      { res := none, log := [], st := st, exited := false }
  else if msg.method = some "restartServer" then
    if NSRVM.checkPermissions service "nsrvm" then
      { res := none, log := [], st := NSRVM.restartServer st, exited := true }
    else
      { res := none, log := [], st := st, exited := false }
  else if msg.method = some "getServicesList" then
    if NSRVM.checkPermissions service "nsrvm" then
      { res := some (NSRVM.getServicesList st), log := [], st := st, exited := false }
    else
      { res := none, log := [], st := st, exited := false }
  else
    { res := none, log := [], st := st, exited := false }

/-- Body of a parent-to-child reply, before `_reqId` is stamped onto it. -/
inductive ReplyBody where
  | configReply (config : ServiceConfig) (apiKey : Option String) : ReplyBody
  | queryRes (r : QueryResult) : ReplyBody
  | empty : ReplyBody

/-- Method `reply(res, reqId)`: send only when the handle is not dead, a
process is attached, and the result is a non-null object (undefined — `none` —
is silently dropped); the sent message carries the inbound `_reqId`. -/
def NsrvmService.reply (h : Handle) (res : Option ReplyBody) (reqId : Nat) :
    List (ReplyBody × Nat) :=
  if !h.dead && h.hasProcess then
    match res with
    | some body => [(body, reqId)]
    | none => []
  else []

/-- Outcome of one onMessage call: new supervisor state, new handle, messages
sent back to the child, log lines. -/
structure MsgOut where
  st : NsrvmState
  handle : Handle
  sent : List (ReplyBody × Nat)
  log : List String

/-- Handler `onMessage(msg)` (messages from a dead handle are ignored): switch
on `msg.cmd` over getConfig / api / setPublicApi / exit / setChildServices,
defaulting to a logged empty reply.  The `exit` branch mirrors the aliasing of
the JS handle: stopping this service marks this very handle dead before the
reply is attempted. -/
def NsrvmService.onMessage (st : NsrvmState) (h : Handle) (msg : Msg) : MsgOut :=
  if h.dead then { st := st, handle := h, sent := [], log := [] }
  else if msg.cmd = some "getConfig" then
    { st := st, handle := h
    , sent := NsrvmService.reply h
        (some (.configReply h.config (alookup st.apiKeys h.config.name))) msg.reqId
    , log := [] }
  else if msg.cmd = some "api" then
    let q := NSRVM.query st h msg
    { st := q.st, handle := h
    , sent := NsrvmService.reply h (q.res.map .queryRes) msg.reqId
    , log := q.log }
  else if msg.cmd = some "setPublicApi" then
    let h := NsrvmService.setPublicApi h msg.api
    { st := st, handle := h
    , sent := NsrvmService.reply h (some .empty) msg.reqId
    , log := [] }
  else if msg.cmd = some "exit" then
    match alookup st.services h.config.name with
    | some _ =>
      let st := { st with services := aerase st.services h.config.name }
      let h := { h with dead := true, hasProcess := false }
      { st := st, handle := h
      , sent := NsrvmService.reply h (some .empty) msg.reqId
      , log := ["[NSRVM] Stopping " ++ h.config.name] }
    | none =>
      { st := st, handle := h
      , sent := NsrvmService.reply h (some .empty) msg.reqId
      , log := ["[NSRVM] Stopping " ++ h.config.name] }
  else if msg.cmd = some "setChildServices" then
    match msg.childConfigs with
    | some configs =>
      if (match h.config.maxChilds with
          | some m => decide (configs.length ≤ m)
          | none => false) = true then
        let r := NSRVM.setChildServices st h configs
        { st := r.2.st, handle := r.1
        , sent := NsrvmService.reply r.1 (some .empty) msg.reqId
        , log := [] }
      else
        { st := st, handle := h
        , sent := NsrvmService.reply h (some .empty) msg.reqId
        , log := [] }
    | none =>
      { st := st, handle := h
      , sent := NsrvmService.reply h (some .empty) msg.reqId
      , log := [] }
  else
    { st := st, handle := h
    , sent := NsrvmService.reply h (some .empty) msg.reqId
    , log := ["[NSRVM] Unknown message from " ++ h.config.name] }

/-! ### Association-list lemmas -/

theorem alookup_append {V : Type} (m1 m2 : List (String × V)) (n : String) :
    alookup (m1 ++ m2) n =
      match alookup m1 n with
      | some v => some v
      | none => alookup m2 n := by
  induction m1 with
  | nil => simp [alookup]
  | cons p rest ih =>
    by_cases hp : p.1 = n
    · simp [alookup, hp]
    · simpa [alookup, hp] using ih

theorem alookup_map_overwrite {V : Type} (m : List (String × V)) (k n : String) (v : V)
    (hne : k ≠ n) :
    alookup (m.map fun p => if p.1 = k then (k, v) else p) n = alookup m n := by
  induction m with
  | nil => simp [alookup]
  | cons p rest ih =>
    obtain ⟨k1, v1⟩ := p
    by_cases hp : k1 = k
    · rw [List.map_cons, show (if (k1, v1).1 = k then (k, v) else (k1, v1)) = (k, v) from if_pos hp]
      rw [alookup, alookup, if_neg hne, if_neg (hp ▸ hne : ¬k1 = n), ih]
    · rw [List.map_cons, show (if (k1, v1).1 = k then (k, v) else (k1, v1)) = (k1, v1) from if_neg hp]
      by_cases hn : k1 = n
      · rw [alookup, alookup, if_pos hn, if_pos hn]
      · rw [alookup, alookup, if_neg hn, if_neg hn, ih]

theorem alookup_none_of_not_any {V : Type} (m : List (String × V)) (n : String)
    (h : m.any (fun p => p.1 = n) = false) : alookup m n = none := by
  induction m with
  | nil => rfl
  | cons p rest ih =>
    obtain ⟨k1, v1⟩ := p
    simp only [List.any_cons, Bool.or_eq_false_iff, decide_eq_false_iff_not] at h
    rw [alookup, if_neg h.1, ih h.2]

theorem alookup_aset_ne {V : Type} (m : List (String × V)) (k n : String) (v : V)
    (hne : k ≠ n) : alookup (aset m k v) n = alookup m n := by
  unfold aset
  split
  · exact alookup_map_overwrite m k n v hne
  · rw [alookup_append]
    cases hm : alookup m n with
    | some w => rfl
    | none => simp [alookup, hne]

theorem alookup_aset_self {V : Type} (m : List (String × V)) (n : String) (v : V) :
    alookup (aset m n v) n = some v := by
  unfold aset
  split
  · rename_i hany
    induction m with
    | nil => simp at hany
    | cons p rest ih =>
      obtain ⟨k1, v1⟩ := p
      by_cases hp : k1 = n
      · rw [List.map_cons, show (if (k1, v1).1 = n then (n, v) else (k1, v1)) = (n, v) from if_pos hp]
        rw [alookup, if_pos rfl]
      · rw [List.map_cons, show (if (k1, v1).1 = n then (n, v) else (k1, v1)) = (k1, v1) from if_neg hp]
        simp only [List.any_cons, Bool.or_eq_true, decide_eq_true_eq] at hany
        rcases hany with h | h
        · exact absurd h hp
        · rw [alookup, if_neg hp]
          exact ih (by simpa using h)
  · rename_i hany
    have hfalse : m.any (fun p => p.1 = n) = false := by
      revert hany; cases m.any (fun p => p.1 = n) <;> simp
    rw [alookup_append, alookup_none_of_not_any m n hfalse]
    rw [alookup, if_pos rfl]

theorem alookup_aerase {V : Type} (m : List (String × V)) (k n : String) :
    alookup (aerase m k) n = if k = n then none else alookup m n := by
  induction m with
  | nil => simp [alookup, aerase]
  | cons p rest ih =>
    obtain ⟨k1, v1⟩ := p
    unfold aerase at ih ⊢
    rw [List.filter_cons]
    by_cases hk : k1 = k
    · rw [if_neg (by simpa using hk), ih]
      by_cases hkn : k = n
      · rw [if_pos hkn, if_pos hkn]
      · rw [if_neg hkn, if_neg hkn, alookup, if_neg (fun h => hkn (hk.symm.trans h))]
    · rw [if_pos (by simpa using hk)]
      by_cases hn : k1 = n
      · have hkn : ¬k = n := fun h => hk (hn.trans h.symm)
        rw [alookup, if_pos hn, if_neg hkn, alookup, if_pos hn]
      · rw [alookup, if_neg hn, ih, alookup]
        by_cases hkn : k = n
        · rw [if_pos hkn, if_pos hkn]
        · rw [if_neg hkn, if_neg hkn, if_neg hn]

theorem alookup_mem {V : Type} {m : List (String × V)} {n : String} {v : V}
    (h : alookup m n = some v) : (n, v) ∈ m := by
  induction m with
  | nil => simp [alookup] at h
  | cons p rest ih =>
    obtain ⟨k1, v1⟩ := p
    rw [alookup] at h
    by_cases hk : k1 = n
    · rw [if_pos hk] at h
      simp only [Option.some.injEq] at h
      subst hk; subst h
      exact List.mem_cons_self _ _
    · rw [if_neg hk] at h
      exact List.mem_cons_of_mem _ (ih h)

theorem alookup_of_mem_nodup {V : Type} {m : List (String × V)} {n : String} {v : V}
    (hnd : (m.map Prod.fst).Nodup) (hmem : (n, v) ∈ m) : alookup m n = some v := by
  induction m with
  | nil => simp at hmem
  | cons p rest ih =>
    obtain ⟨k1, v1⟩ := p
    rw [List.map_cons, List.nodup_cons] at hnd
    rcases List.mem_cons.mp hmem with heq | hmem'
    · have h1 : n = k1 := congrArg Prod.fst heq
      have h2 : v = v1 := congrArg Prod.snd heq
      rw [alookup, if_pos h1.symm]
      exact congrArg some h2.symm
    · have hk1 : k1 ≠ n := by
        intro hk
        exact hnd.1 (hk ▸ (List.mem_map.mpr ⟨(n, v), hmem', rfl⟩))
      rw [alookup, if_neg hk1]
      exact ih hnd.2 hmem'

theorem alookup_eq_some_split {V : Type} {m : List (String × V)} {n : String} {v : V}
    (h : alookup m n = some v) :
    ∃ l1 l2, m = l1 ++ (n, v) :: l2 ∧ ∀ p ∈ l1, p.1 ≠ n := by
  induction m with
  | nil => simp [alookup] at h
  | cons p rest ih =>
    obtain ⟨k1, v1⟩ := p
    rw [alookup] at h
    by_cases hk : k1 = n
    · rw [if_pos hk] at h
      simp only [Option.some.injEq] at h
      exact ⟨[], rest, by simp [hk, h], by simp⟩
    · rw [if_neg hk] at h
      obtain ⟨l1, l2, heq, hfree⟩ := ih h
      exact ⟨(k1, v1) :: l1, l2, by simp [heq], by
        intro p hp
        rcases List.mem_cons.mp hp with rfl | hp'
        · exact hk
        · exact hfree p hp'⟩

/-! ### Well-formedness: keys of the JS maps agree with the name fields -/

/-- Every binding's key is the name computed from its value. -/
def KeyMatches {V : Type} (f : V → String) (m : List (String × V)) : Prop :=
  ∀ p ∈ m, p.1 = f p.2

instance {V : Type} (f : V → String) [DecidableEq String] (m : List (String × V)) :
    Decidable (KeyMatches f m) := by
  unfold KeyMatches; infer_instance

theorem keyMatches_aset {V : Type} {f : V → String} {m : List (String × V)} {k : String} {v : V}
    (hm : KeyMatches f m) (hv : k = f v) : KeyMatches f (aset m k v) := by
  intro p hp
  unfold aset at hp
  split at hp
  · obtain ⟨q, hq, hpq⟩ := List.mem_map.mp hp
    by_cases hqk : q.1 = k
    · rw [← hpq, if_pos hqk]; exact hv
    · rw [← hpq, if_neg hqk]; exact hm q hq
  · rcases List.mem_append.mp hp with h | h
    · exact hm p h
    · rw [List.mem_singleton.mp h]; exact hv

theorem keyMatches_aerase {V : Type} {f : V → String} {m : List (String × V)} {k : String}
    (hm : KeyMatches f m) : KeyMatches f (aerase m k) :=
  fun p hp => hm p (List.mem_of_mem_filter hp)

/-- Supervisor-state well-formedness used by the reconciliation theorems. -/
def NSRVM.WF (st : NsrvmState) : Prop :=
  KeyMatches (fun h : Handle => h.config.name) st.services ∧
  (st.services.map Prod.fst).Nodup ∧
  KeyMatches ServiceConfig.name st.configServices ∧
  (st.configServices.map Prod.fst).Nodup

instance (st : NsrvmState) : Decidable (NSRVM.WF st) := by
  unfold NSRVM.WF; infer_instance

/-! ### Frame lemmas for the supervisor operations -/

theorem stopService_services (st : NsrvmState) (m n : String) :
    alookup (NSRVM.stopService st m).services n =
      if m = n then none else alookup st.services n := by
  unfold NSRVM.stopService
  cases hm : alookup st.services m with
  | none =>
    by_cases hmn : m = n
    · subst hmn; simp [hm]
    · simp [hmn]
  | some h => simp [alookup_aerase, eq_comm]

theorem stopService_frame (st : NsrvmState) (m : String) :
    (NSRVM.stopService st m).apiKeys = st.apiKeys ∧
    (NSRVM.stopService st m).configServices = st.configServices ∧
    (NSRVM.stopService st m).childs = st.childs ∧
    (NSRVM.stopService st m).freshKey = st.freshKey ∧
    (NSRVM.stopService st m).rng = st.rng ∧
    (NSRVM.stopService st m).moduleResolvable = st.moduleResolvable := by
  unfold NSRVM.stopService
  cases alookup st.services m <;> simp

theorem assignFold_cs_keyMatches (parentName : String) (configs : List ServiceConfig) :
    ∀ acc : List ServiceConfig × List String × List (String × ServiceConfig),
      KeyMatches ServiceConfig.name acc.2.2 →
      KeyMatches ServiceConfig.name
        (configs.foldl (NSRVM.assignChildsStep parentName) acc).2.2 := by
  induction configs with
  | nil => intro acc h; simpa using h
  | cons c rest ih =>
    intro acc h
    rw [List.foldl_cons]
    exact ih _ (keyMatches_aset h rfl)

theorem assignChilds_configServices_keyMatches
    (parentName : String) (allowed : List String) (cs : List (String × ServiceConfig))
    (configs : List ServiceConfig) (hcs : KeyMatches ServiceConfig.name cs) :
    KeyMatches ServiceConfig.name (NSRVM.assignChilds parentName allowed cs configs).2.2 :=
  assignFold_cs_keyMatches parentName configs ([], allowed, cs) hcs

theorem startResolved_frame (st1 : NsrvmState) (c : ServiceConfig) :
    (NSRVM.startResolved st1 c).apiKeys = st1.apiKeys ∧
    (NSRVM.startResolved st1 c).freshKey = st1.freshKey ∧
    (NSRVM.startResolved st1 c).rng = st1.rng ∧
    (NSRVM.startResolved st1 c).moduleResolvable = st1.moduleResolvable := by
  unfold NSRVM.startResolved
  split
  · exact ⟨rfl, rfl, rfl, rfl⟩
  · cases alookup st1.childs c.name <;> exact ⟨rfl, rfl, rfl, rfl⟩

theorem startResolved_services_ne (st1 : NsrvmState) (c : ServiceConfig) (n : String)
    (hne : c.name ≠ n) :
    alookup (NSRVM.startResolved st1 c).services n = alookup st1.services n := by
  unfold NSRVM.startResolved
  split
  · rfl
  · cases alookup st1.childs c.name <;>
      simp only [] <;> exact alookup_aset_ne _ _ _ _ hne

theorem startResolved_configServices_keyMatches (st1 : NsrvmState) (c : ServiceConfig)
    (hkm : KeyMatches ServiceConfig.name st1.configServices) :
    KeyMatches ServiceConfig.name (NSRVM.startResolved st1 c).configServices := by
  unfold NSRVM.startResolved
  split
  · exact hkm
  · cases alookup st1.childs c.name <;> simp only []
    · exact hkm
    · exact assignChilds_configServices_keyMatches _ _ _ _ hkm

theorem startService_frame (st : NsrvmState) (c : ServiceConfig) :
    (NSRVM.startService st c).apiKeys = st.apiKeys ∧
    (NSRVM.startService st c).freshKey = st.freshKey ∧
    (NSRVM.startService st c).rng = st.rng ∧
    (NSRVM.startService st c).moduleResolvable = st.moduleResolvable := by
  unfold NSRVM.startService
  cases alookup st.services c.name <;> exact startResolved_frame _ c

theorem startService_services_ne (st : NsrvmState) (c : ServiceConfig) (n : String)
    (hne : c.name ≠ n) :
    alookup (NSRVM.startService st c).services n = alookup st.services n := by
  unfold NSRVM.startService
  cases alookup st.services c.name
  · exact startResolved_services_ne st c n hne
  · rw [startResolved_services_ne _ c n hne]
    simp only []
    rw [alookup_aerase, if_neg hne]

theorem startService_configServices_keyMatches (st : NsrvmState) (c : ServiceConfig)
    (hkm : KeyMatches ServiceConfig.name st.configServices) :
    KeyMatches ServiceConfig.name (NSRVM.startService st c).configServices := by
  unfold NSRVM.startService
  cases alookup st.services c.name <;> exact startResolved_configServices_keyMatches _ c hkm

/-! ### Lemmas about the three phases of runServices -/

theorem stopFold_services (names : List String) :
    ∀ st n, n ∉ names →
      alookup ((names.foldl NSRVM.stopService st).services) n = alookup st.services n := by
  induction names with
  | nil => intro st n _; rfl
  | cons m rest ih =>
    intro st n hn
    rw [List.foldl_cons, ih _ n (fun h => hn (List.mem_cons_of_mem _ h)), stopService_services,
      if_neg (fun h => hn (List.mem_cons.mpr (Or.inl h.symm)))]

theorem stopFold_frame (names : List String) :
    ∀ st, (names.foldl NSRVM.stopService st).apiKeys = st.apiKeys ∧
      (names.foldl NSRVM.stopService st).configServices = st.configServices ∧
      (names.foldl NSRVM.stopService st).childs = st.childs ∧
      (names.foldl NSRVM.stopService st).freshKey = st.freshKey ∧
      (names.foldl NSRVM.stopService st).rng = st.rng ∧
      (names.foldl NSRVM.stopService st).moduleResolvable = st.moduleResolvable := by
  induction names with
  | nil => intro st; exact ⟨rfl, rfl, rfl, rfl, rfl, rfl⟩
  | cons m rest ih =>
    intro st
    rw [List.foldl_cons]
    obtain ⟨i1, i2, i3, i4, i5, i6⟩ := ih (NSRVM.stopService st m)
    obtain ⟨s1, s2, s3, s4, s5, s6⟩ := stopService_frame st m
    exact ⟨i1.trans s1, i2.trans s2, i3.trans s3, i4.trans s4, i5.trans s5, i6.trans s6⟩

theorem updStep_keys (fresh : Nat → String) (acc : UpdAcc) (p : String × ServiceConfig)
    (n : String) (k : String) (h : alookup acc.keys n = some k) :
    alookup (NSRVM.updStep fresh acc p).keys n = some k := by
  by_cases hk : (alookup acc.keys p.2.name).isNone
  · have hne : p.2.name ≠ n := by
      intro he; rw [he, h] at hk; simp at hk
    cases hsvc : alookup acc.svcs p.2.name <;>
      simp [NSRVM.updStep, hk, hsvc, alookup_aset_ne _ _ _ _ hne, h]
  · cases hsvc : alookup acc.svcs p.2.name <;>
      simp [NSRVM.updStep, hk, hsvc, h]

theorem updFold_keys (fresh : Nat → String) (cfgs : List (String × ServiceConfig)) :
    ∀ acc n k, alookup acc.keys n = some k →
      alookup ((cfgs.foldl (NSRVM.updStep fresh) acc).keys) n = some k := by
  induction cfgs with
  | nil => intro acc n k h; exact h
  | cons p rest ih =>
    intro acc n k h
    rw [List.foldl_cons]
    exact ih _ n k (updStep_keys fresh acc p n k h)

theorem updStep_untouched (fresh : Nat → String) (acc : UpdAcc) (p : String × ServiceConfig)
    (n : String) (hp : p.2.name ≠ n) :
    alookup (NSRVM.updStep fresh acc p).svcs n = alookup acc.svcs n ∧
    (n ∈ (NSRVM.updStep fresh acc p).toStart ↔ n ∈ acc.toStart) := by
  have hp' : ¬n = p.2.name := fun he => hp he.symm
  by_cases hk : (alookup acc.keys p.2.name).isNone <;>
  cases hsvc : alookup acc.svcs p.2.name
  case pos.none => simp [NSRVM.updStep, hk, hsvc, hp']
  case neg.none => simp [NSRVM.updStep, hk, hsvc, hp']
  case pos.some hd =>
    cases hdead : hd.dead <;>
      simp [NSRVM.updStep, hk, hsvc, hdead, alookup_aset_ne _ _ _ _ hp, hp']
  case neg.some hd =>
    cases hdead : hd.dead <;>
      simp [NSRVM.updStep, hk, hsvc, hdead, alookup_aset_ne _ _ _ _ hp, hp']

theorem updFold_untouched (fresh : Nat → String) (cfgs : List (String × ServiceConfig)) :
    ∀ acc n, (∀ p ∈ cfgs, p.2.name ≠ n) →
      alookup ((cfgs.foldl (NSRVM.updStep fresh) acc).svcs) n = alookup acc.svcs n ∧
      (n ∈ (cfgs.foldl (NSRVM.updStep fresh) acc).toStart ↔ n ∈ acc.toStart) := by
  induction cfgs with
  | nil => intro acc n _; exact ⟨rfl, Iff.rfl⟩
  | cons p rest ih =>
    intro acc n hfree
    rw [List.foldl_cons]
    obtain ⟨s1, s2⟩ := updStep_untouched fresh acc p n (hfree p (List.mem_cons_self _ _))
    obtain ⟨r1, r2⟩ := ih (NSRVM.updStep fresh acc p) n
      (fun q hq => hfree q (List.mem_cons_of_mem _ hq))
    exact ⟨r1.trans s1, r2.trans s2⟩

theorem updStep_hit (fresh : Nat → String) (acc : UpdAcc) (k : String) (c : ServiceConfig)
    (h : Handle) (hsvc : alookup acc.svcs c.name = some h) (hdead : h.dead = false) :
    alookup (NSRVM.updStep fresh acc (k, c)).svcs c.name = some { h with config := c } ∧
    (NSRVM.updStep fresh acc (k, c)).toStart = acc.toStart := by
  by_cases hkey : (alookup acc.keys c.name).isNone <;>
    simp [NSRVM.updStep, hkey, hsvc, hdead, alookup_aset_self]

theorem updFold_refresh (fresh : Nat → String) (l1 l2 : List (String × ServiceConfig))
    (k : String) (c : ServiceConfig) (acc : UpdAcc) (h : Handle)
    (hl1 : ∀ p ∈ l1, p.2.name ≠ c.name) (hl2 : ∀ p ∈ l2, p.2.name ≠ c.name)
    (hsvc : alookup acc.svcs c.name = some h) (hdead : h.dead = false)
    (hts : c.name ∉ acc.toStart) :
    alookup (((l1 ++ (k, c) :: l2).foldl (NSRVM.updStep fresh) acc).svcs) c.name =
      some { h with config := c } ∧
    c.name ∉ ((l1 ++ (k, c) :: l2).foldl (NSRVM.updStep fresh) acc).toStart := by
  rw [List.foldl_append, List.foldl_cons]
  obtain ⟨e1, e2⟩ := updFold_untouched fresh l1 acc c.name hl1
  obtain ⟨m1, m2⟩ := updStep_hit fresh (l1.foldl (NSRVM.updStep fresh) acc) k c h
    (e1.trans hsvc) hdead
  obtain ⟨r1, r2⟩ := updFold_untouched fresh l2
    (NSRVM.updStep fresh (l1.foldl (NSRVM.updStep fresh) acc) (k, c)) c.name hl2
  refine ⟨r1.trans m1, fun hin => hts ?_⟩
  exact e2.mp (m2 ▸ r2.mp hin)

theorem startFold_frame (names : List String) :
    ∀ s, (names.foldl NSRVM.startByName s).apiKeys = s.apiKeys ∧
      (names.foldl NSRVM.startByName s).freshKey = s.freshKey ∧
      (names.foldl NSRVM.startByName s).rng = s.rng ∧
      (names.foldl NSRVM.startByName s).moduleResolvable = s.moduleResolvable := by
  induction names with
  | nil => intro s; exact ⟨rfl, rfl, rfl, rfl⟩
  | cons m rest ih =>
    intro s
    rw [List.foldl_cons]
    obtain ⟨i1, i2, i3, i4⟩ := ih (NSRVM.startByName s m)
    have hstep : (NSRVM.startByName s m).apiKeys = s.apiKeys ∧
        (NSRVM.startByName s m).freshKey = s.freshKey ∧
        (NSRVM.startByName s m).rng = s.rng ∧
        (NSRVM.startByName s m).moduleResolvable = s.moduleResolvable := by
      unfold NSRVM.startByName
      cases alookup s.configServices m with
      | none => exact ⟨rfl, rfl, rfl, rfl⟩
      | some c =>
        obtain ⟨f1, f2, f3, f4⟩ := startService_frame s c
        exact ⟨f1, f2, f3, f4⟩
    exact ⟨i1.trans hstep.1, i2.trans hstep.2.1, i3.trans hstep.2.2.1, i4.trans hstep.2.2.2⟩

theorem startByName_keyMatches (s : NsrvmState) (m : String)
    (hkm : KeyMatches ServiceConfig.name s.configServices) :
    KeyMatches ServiceConfig.name (NSRVM.startByName s m).configServices := by
  unfold NSRVM.startByName
  cases alookup s.configServices m with
  | none => exact hkm
  | some c => exact startService_configServices_keyMatches s c hkm

theorem startFold_services (names : List String) :
    ∀ s n, KeyMatches ServiceConfig.name s.configServices → n ∉ names →
      alookup ((names.foldl NSRVM.startByName s).services) n = alookup s.services n := by
  induction names with
  | nil => intro s n _ _; rfl
  | cons m rest ih =>
    intro s n hkm hn
    rw [List.foldl_cons]
    rw [ih _ n (startByName_keyMatches s m hkm) (fun h => hn (List.mem_cons_of_mem _ h))]
    unfold NSRVM.startByName
    cases hm : alookup s.configServices m with
    | none => rfl
    | some c =>
      have hc : m = c.name := hkm (m, c) (alookup_mem hm)
      have hne : c.name ≠ n := by
        intro he
        exact hn (List.mem_cons.mpr (Or.inl (he.symm.trans hc.symm)))
      exact startService_services_ne s c n hne

theorem mem_stopNames_iff (st : NsrvmState)
    (hkm : KeyMatches (fun h : Handle => h.config.name) st.services)
    (hnd : (st.services.map Prod.fst).Nodup) (n : String) (h : Handle)
    (hsv : alookup st.services n = some h) :
    n ∈ (st.services.filter (NSRVM.needsStop st)).map (fun p => p.2.config.name) ↔
      (alookup st.configServices n = none ∨
       ∃ c, alookup st.configServices n = some c ∧ h.config.apiPort ≠ c.apiPort) := by
  constructor
  · intro hin
    obtain ⟨p, hpf, hpname⟩ := List.mem_map.mp hin
    obtain ⟨hpmem, hpcond⟩ := List.mem_filter.mp hpf
    have hp1 : p.1 = n := (hkm p hpmem).trans hpname
    have hmemn : (n, p.2) ∈ st.services := by
      have : p = (n, p.2) := by
        rw [← hp1]
      exact this ▸ hpmem
    have hlook : alookup st.services n = some p.2 := alookup_of_mem_nodup hnd hmemn
    have hp2 : p.2 = h := by
      have := hlook.symm.trans hsv
      simpa using this
    unfold NSRVM.needsStop at hpcond
    rw [hp2] at hpname hpcond
    rw [hpname] at hpcond
    cases hcs : alookup st.configServices n with
    | none => exact Or.inl rfl
    | some c =>
      rw [hcs] at hpcond
      simp only [decide_eq_true_eq] at hpcond
      exact Or.inr ⟨c, rfl, hpcond⟩
  · intro hcond
    have hmemn : (n, h) ∈ st.services := alookup_mem hsv
    have hname : n = h.config.name := hkm (n, h) hmemn
    have hcondb : NSRVM.needsStop st (n, h) = true := by
      unfold NSRVM.needsStop
      rw [← hname]
      rcases hcond with hnone | ⟨c, hc, hne⟩
      · rw [hnone]
      · rw [hc]
        simpa using hne
    exact List.mem_map.mpr ⟨(n, h), List.mem_filter.mpr ⟨hmemn, hcondb⟩, hname.symm⟩

/-- C5: in every reconciliation pass (runServices), exactly the live handles
whose name is missing from the desired map or whose apiPort differs from the
desired one are stopped; a live non-dead handle whose (name, apiPort) pair is
unchanged is neither stopped nor restarted, and only its config field is
overwritten in place. -/
theorem c5_runServices_stop_exactness_and_frame (st : NsrvmState) (hwf : NSRVM.WF st) :
    (∀ n h, alookup st.services n = some h →
      (n ∈ (NSRVM.runServices st).stopped ↔
        (alookup st.configServices n = none ∨
         ∃ c, alookup st.configServices n = some c ∧ h.config.apiPort ≠ c.apiPort))) ∧
    (∀ n h c, alookup st.services n = some h → h.dead = false →
      alookup st.configServices n = some c → h.config.apiPort = c.apiPort →
      n ∉ (NSRVM.runServices st).stopped ∧
      n ∉ (NSRVM.runServices st).started ∧
      alookup (NSRVM.runServices st).st.services n = some { h with config := c }) := by
  obtain ⟨hkm, hnd, hckm, hcnd⟩ := hwf
  set SN := (st.services.filter (NSRVM.needsStop st)).map (fun p => p.2.config.name) with hSN
  set SF := SN.foldl NSRVM.stopService st with hSF
  set ACC := SF.configServices.foldl (NSRVM.updStep SF.freshKey)
    ({ svcs := SF.services, keys := SF.apiKeys, rng := SF.rng, toStart := [] } : UpdAcc) with hACC
  set ST2 := { SF with services := ACC.svcs, apiKeys := ACC.keys, rng := ACC.rng } with hST2
  set ST3 := ACC.toStart.foldl NSRVM.startByName ST2 with hST3
  have hrun : NSRVM.runServices st = ⟨ST3, SN, ACC.toStart⟩ := rfl
  have hfr := stopFold_frame SN st
  have hcs1 : SF.configServices = st.configServices := hfr.2.1
  constructor
  · intro n h hsv
    rw [hrun]
    exact mem_stopNames_iff st hkm hnd n h hsv
  · intro n h c hsv hdead hcfg hport
    have hstop : n ∉ SN := by
      intro hin
      rcases (mem_stopNames_iff st hkm hnd n h hsv).mp hin with hnone | ⟨c', hc', hne⟩
      · rw [hcfg] at hnone
        exact Option.noConfusion hnone
      · have hcc : c = c' := by
          have := hcfg.symm.trans hc'
          simpa using this
        exact hne (hcc ▸ hport)
    have hsv1 : alookup SF.services n = some h :=
      (stopFold_services SN st n hstop).trans hsv
    obtain ⟨l1, l2, heq, hl1⟩ := alookup_eq_some_split hcfg
    have hcname : n = c.name := hckm (n, c) (alookup_mem hcfg)
    have hl2 : ∀ p ∈ l2, p.1 ≠ n := by
      have hnd2 : ((l1 ++ (n, c) :: l2).map Prod.fst).Nodup := heq ▸ hcnd
      rw [List.map_append, List.map_cons] at hnd2
      intro p hp hpn
      exact (List.nodup_cons.mp hnd2.of_append_right).1 (List.mem_map.mpr ⟨p, hp, hpn⟩)
    have hl1v : ∀ p ∈ l1, p.2.name ≠ c.name := by
      intro p hp hpe
      have hmem : p ∈ st.configServices := heq ▸ List.mem_append.mpr (Or.inl hp)
      exact hl1 p hp ((hckm p hmem).trans (hpe.trans hcname.symm))
    have hl2v : ∀ p ∈ l2, p.2.name ≠ c.name := by
      intro p hp hpe
      have hmem : p ∈ st.configServices :=
        heq ▸ List.mem_append.mpr (Or.inr (List.mem_cons_of_mem _ hp))
      exact hl2 p hp ((hckm p hmem).trans (hpe.trans hcname.symm))
    have hsvcn : alookup SF.services c.name = some h := by
      rw [← hcname]; exact hsv1
    have hrefresh := updFold_refresh SF.freshKey l1 l2 n c
      ({ svcs := SF.services, keys := SF.apiKeys, rng := SF.rng, toStart := [] } : UpdAcc)
      h hl1v hl2v hsvcn hdead (List.not_mem_nil _)
    rw [show l1 ++ (n, c) :: l2 = SF.configServices from (hcs1.trans heq).symm] at hrefresh
    rw [← hACC] at hrefresh
    have hnts : n ∉ ACC.toStart := by
      rw [hcname]; exact hrefresh.2
    have hkm2 : KeyMatches ServiceConfig.name ST2.configServices := by
      rw [hST2]
      show KeyMatches ServiceConfig.name SF.configServices
      rw [hcs1]; exact hckm
    have hfinal : alookup ST3.services n = alookup ST2.services n :=
      startFold_services ACC.toStart ST2 n hkm2 hnts
    refine ⟨?_, ?_, ?_⟩
    · rw [hrun]; exact hstop
    · rw [hrun]; exact hnts
    · rw [hrun]
      show alookup ST3.services n = some { h with config := c }
      rw [hfinal]
      show alookup ACC.svcs n = some { h with config := c }
      rw [hcname]
      exact hrefresh.1

theorem runServices_apiKeys_preserved (st : NsrvmState) (n k : String)
    (hk : alookup st.apiKeys n = some k) :
    alookup (NSRVM.runServices st).st.apiKeys n = some k := by
  set SN := (st.services.filter (NSRVM.needsStop st)).map (fun p => p.2.config.name) with hSN
  set SF := SN.foldl NSRVM.stopService st with hSF
  set ACC := SF.configServices.foldl (NSRVM.updStep SF.freshKey)
    ({ svcs := SF.services, keys := SF.apiKeys, rng := SF.rng, toStart := [] } : UpdAcc) with hACC
  set ST2 := { SF with services := ACC.svcs, apiKeys := ACC.keys, rng := ACC.rng } with hST2
  set ST3 := ACC.toStart.foldl NSRVM.startByName ST2 with hST3
  have hrun : NSRVM.runServices st = ⟨ST3, SN, ACC.toStart⟩ := rfl
  rw [hrun]
  show alookup ST3.apiKeys n = some k
  rw [(startFold_frame ACC.toStart ST2).1]
  show alookup ACC.keys n = some k
  rw [hACC]
  apply updFold_keys
  show alookup SF.apiKeys n = some k
  rw [(stopFold_frame SN st).1]
  exact hk

theorem setChildServices_reaches_runServices (st : NsrvmState) (parent : Handle)
    (configs : List ServiceConfig) :
    ∃ st', (NSRVM.setChildServices st parent configs).2 = NSRVM.runServices st' ∧
      st'.apiKeys = st.apiKeys :=
  ⟨_, rfl, rfl⟩

/-- C6: once apiKeys[n] is present in the registry, reconciliation, service
stop, service start and sub-service registration all leave it unchanged; new
keys are only minted for names not yet present. -/
theorem c6_apiKeys_never_rotated (st : NsrvmState) (n k : String)
    (hk : alookup st.apiKeys n = some k) :
    alookup (NSRVM.runServices st).st.apiKeys n = some k ∧
    (∀ m, alookup (NSRVM.stopService st m).apiKeys n = some k) ∧
    (∀ c, alookup (NSRVM.startService st c).apiKeys n = some k) ∧
    (∀ parent configs,
      alookup (NSRVM.setChildServices st parent configs).2.st.apiKeys n = some k) := by
  refine ⟨runServices_apiKeys_preserved st n k hk, ?_, ?_, ?_⟩
  · intro m
    rw [(stopService_frame st m).1]
    exact hk
  · intro c
    rw [(startService_frame st c).1]
    exact hk
  · intro parent configs
    obtain ⟨st', he, hkeys⟩ := setChildServices_reaches_runServices st parent configs
    rw [he]
    refine runServices_apiKeys_preserved st' n k ?_
    rw [hkeys]
    exact hk

/-! ### Concrete fixtures used to witness the theorems on sample inputs -/

/-- Sample child service config registered by the sample parent. -/
def cfgChild : ServiceConfig :=
  { name := "alpha", apiPort := 1, allowedAPI := [], parent := some "parent1"
  , maxChilds := some 0 }

/-- Sample parent service config holding the capability for its child. -/
def cfgParent : ServiceConfig :=
  { name := "parent1", apiPort := 2, allowedAPI := ["alpha"], maxChilds := some 4 }

/-- Sample live handle of the parent service. -/
def hdlParent : Handle := { config := cfgParent, dead := false, hasProcess := true }

/-- Sample supervisor state: the parent is live, its child is desired only. -/
def stSample : NsrvmState :=
  { services := [("parent1", hdlParent)]
  , childs := [("parent1", [cfgChild])]
  , apiKeys := [("parent1", "k1"), ("alpha", "k2")]
  , configServices := [("parent1", cfgParent), ("alpha", cfgChild)]
  , freshKey := fun n => "key" ++ toString n
  , rng := 0
  , moduleResolvable := fun _ => true }

/-- C5 witness: the sample state is well-formed and the parent handle, whose
(name, apiPort) pair is unchanged, is neither stopped nor restarted and keeps
everything but its config. -/
theorem c5_runServices_witness :
    NSRVM.WF stSample ∧
    ("parent1" ∉ (NSRVM.runServices stSample).stopped ∧
     "parent1" ∉ (NSRVM.runServices stSample).started ∧
     alookup (NSRVM.runServices stSample).st.services "parent1" =
       some { hdlParent with config := cfgParent }) :=
  ⟨by decide,
   (c5_runServices_stop_exactness_and_frame stSample (by decide)).2
     "parent1" hdlParent cfgParent rfl rfl rfl rfl⟩

/-- C1 (the code contradicts the claim): calling setChildServices on the
sample parent with the empty new list first deletes the stored child "alpha"
from the desired map and from the parent's allowedAPI, but the stored child
list is never cleared, so the assignChilds pass over it re-inserts "alpha"
into the desired map and back into the parent's allowedAPI, and the
re-inserted entry then survives the triggered reconciliation. -/
theorem c1_removed_child_is_reinserted :
    (alookup (NSRVM.setChildServices stSample hdlParent []).2.st.configServices
      "alpha").isSome = true ∧
    (NSRVM.setChildServices stSample hdlParent []).1.config.allowedAPI.contains
      "alpha" = true :=
  ⟨rfl, rfl⟩

/-- C7 (the code contradicts the claim): a hook descriptor with
runTimeout = 3000 arms a kill timer of the hardcoded 10000 milliseconds, not
of runTimeout milliseconds; the timer handler does log the kill and does
resolve the promise, and a zero runTimeout arms no timer. -/
theorem c7_kill_timer_hardcoded :
    (NsrvmService.run "cmd" ["a"] true 3000).killTimerMs = some 10000 ∧
    (NsrvmService.run "cmd" ["a"] true 3000).killTimerMs ≠ some 3000 ∧
    (NsrvmService.run "cmd" ["a"] true 3000).timerLogsKill = true ∧
    (NsrvmService.run "cmd" ["a"] true 3000).timerResolves = true ∧
    (NsrvmService.run "cmd" ["a"] true 0).killTimerMs = none := by
  decide

theorem getReqId_step (s : Nat) (h1 : 1 ≤ s) (h2 : s ≤ 0xffffffff) :
    1 ≤ (NSRVMApiClient.getReqId s).2 ∧
    (NSRVMApiClient.getReqId s).2 ≤ 0xffffffff ∧
    (NSRVMApiClient.getReqId s).2 ≠ 0 ∧
    (NSRVMApiClient.getReqId s).1 = (NSRVMApiClient.getReqId s).2 ∧
    (s < 0xffffffff → (NSRVMApiClient.getReqId s).2 = s + 1) ∧
    (s = 0xffffffff → (NSRVMApiClient.getReqId s).2 = 1) := by
  have hval : (NSRVMApiClient.getReqId s).2 = if s + 1 > 0xffffffff then 1 else s + 1 := rfl
  have hfst : (NSRVMApiClient.getReqId s).1 = (NSRVMApiClient.getReqId s).2 := rfl
  by_cases hgt : s + 1 > 0xffffffff
  · rw [if_pos hgt] at hval
    exact ⟨by omega, by omega, by omega, hfst, fun hlt => by omega, fun _ => hval⟩
  · rw [if_neg hgt] at hval
    exact ⟨by omega, by omega, by omega, hfst, fun _ => hval, fun heq => by omega⟩

theorem reqIdStream_range (n : Nat) :
    1 ≤ NSRVMApiClient.reqIdStream n ∧ NSRVMApiClient.reqIdStream n ≤ 0xffffffff := by
  induction n with
  | zero => constructor <;> decide
  | succ n ih =>
    have hs := getReqId_step (NSRVMApiClient.reqIdStream n) ih.1 ih.2
    exact ⟨hs.1, hs.2.1⟩

/-- C3: the correlation counter starts at 1; every id issued by getReqId lies
in [1, 2^32-1] and is never 0; below the maximum the next issued id is the
successor of the previous one (strictly increasing), and the id issued after
0xffffffff is 1. -/
theorem c3_reqId_spec :
    NSRVMApiClient.initialLastReqId = 1 ∧
    (∀ s : Nat, 1 ≤ s → s ≤ 0xffffffff →
      1 ≤ (NSRVMApiClient.getReqId s).2 ∧
      (NSRVMApiClient.getReqId s).2 ≤ 0xffffffff ∧
      (NSRVMApiClient.getReqId s).2 ≠ 0 ∧
      (NSRVMApiClient.getReqId s).1 = (NSRVMApiClient.getReqId s).2 ∧
      (s < 0xffffffff → (NSRVMApiClient.getReqId s).2 = s + 1) ∧
      (s = 0xffffffff → (NSRVMApiClient.getReqId s).2 = 1)) ∧
    (∀ n : Nat,
      1 ≤ NSRVMApiClient.reqIdStream n ∧
      NSRVMApiClient.reqIdStream n ≤ 0xffffffff ∧
      NSRVMApiClient.reqIdStream n ≠ 0 ∧
      (NSRVMApiClient.reqIdStream n < 0xffffffff →
        NSRVMApiClient.reqIdStream (n + 1) = NSRVMApiClient.reqIdStream n + 1) ∧
      (NSRVMApiClient.reqIdStream n = 0xffffffff →
        NSRVMApiClient.reqIdStream (n + 1) = 1)) := by
  refine ⟨rfl, getReqId_step, ?_⟩
  intro n
  obtain ⟨hr1, hr2⟩ := reqIdStream_range n
  have hs := getReqId_step (NSRVMApiClient.reqIdStream n) hr1 hr2
  exact ⟨hr1, hr2, by omega, fun hlt => hs.2.2.2.2.1 hlt, fun heq => hs.2.2.2.2.2 heq⟩

/-- C3 witness: concrete issuance steps, including the wrap after the maximum. -/
theorem c3_reqId_witness :
    (NSRVMApiClient.getReqId 3).2 = 4 ∧
    (NSRVMApiClient.getReqId 0xffffffff).2 = 1 ∧
    NSRVMApiClient.reqIdStream 1 = NSRVMApiClient.reqIdStream 0 + 1 :=
  ⟨(c3_reqId_spec.2.1 3 (by decide) (by decide)).2.2.2.2.1 (by decide),
   (c3_reqId_spec.2.1 0xffffffff (by decide) (by decide)).2.2.2.2.2 rfl,
   (c3_reqId_spec.2.2 0).2.2.2.1 (by decide)⟩

/-- C4: after onExit the runAfterExit hooks appear first and in order in the
awaited trace, followed by the waitAfterExit pause, followed — exactly when
the exit code is non-zero — by the scheduling of a RESTART_TIMEOUT = 3000 ms
restart; an exit with code 0 schedules no restart; stop() clears any pending
restart timer, in particular when it follows an onExit. -/
theorem c4_onExit_restart_scheduling :
    (∀ (h : Handle) (code : Int) hooks, h.config.runAfterExit = some hooks →
      (NsrvmService.onExit h code).2 =
        hooks.map LcEvent.runHook ++
          (if h.config.waitAfterExit > 0 then [LcEvent.wait h.config.waitAfterExit] else []) ++
          (if code ≠ 0 then [LcEvent.scheduleRestart RESTART_TIMEOUT] else [])) ∧
    (∀ (h : Handle) (code : Int), code ≠ 0 →
      (NsrvmService.onExit h code).1.restartTimer = some RESTART_TIMEOUT ∧
      (NsrvmService.onExit h code).2.getLast? = some (LcEvent.scheduleRestart RESTART_TIMEOUT)) ∧
    (∀ h : Handle, (NsrvmService.onExit h 0).1.restartTimer = h.restartTimer ∧
      ∀ t, LcEvent.scheduleRestart t ∉ (NsrvmService.onExit h 0).2) ∧
    (∀ h : Handle, (NsrvmService.stop h).restartTimer = none) ∧
    (∀ (h : Handle) (code : Int),
      (NsrvmService.stop (NsrvmService.onExit h code).1).restartTimer = none) ∧
    RESTART_TIMEOUT = 3000 := by
  have hstop : ∀ h : Handle, (NsrvmService.stop h).restartTimer = none := by
    intro h
    simp only [NsrvmService.stop]
    split <;> rfl
  refine ⟨?_, ?_, ?_, hstop, fun h code => hstop _, rfl⟩
  · intro h code hooks hra
    unfold NsrvmService.onExit
    rw [hra]
    by_cases hc : code ≠ 0
    · rw [if_pos hc, if_pos hc]
    · rw [if_neg hc, if_neg hc, List.append_nil]
  · intro h code hc
    unfold NsrvmService.onExit
    rw [if_pos hc]
    refine ⟨rfl, ?_⟩
    dsimp only
    rw [List.getLast?_append_cons]
    rfl
  · intro h
    constructor
    · unfold NsrvmService.onExit
      rw [if_neg (by omega : ¬(0 : Int) ≠ 0)]
    · intro t
      unfold NsrvmService.onExit
      rw [if_neg (by omega : ¬(0 : Int) ≠ 0)]
      cases hra : h.config.runAfterExit with
      | none => simp
      | some hooks =>
        simp only [List.mem_append, List.mem_map]
        rintro (⟨hk, _, habs⟩ | habs)
        · exact LcEvent.noConfusion habs
        · split at habs <;> simp at habs

/-- Sample hook command used by the C4 witness. -/
def hook1 : Hook := { app := "touch", args := ["x"], waitForClose := true, runTimeout := 0 }

/-- Sample config with an after-exit hook and a pause, used by the C4 witness. -/
def cfgExit : ServiceConfig :=
  { name := "svc", apiPort := 3, allowedAPI := [], runAfterExit := some [hook1]
  , waitAfterExit := 5 }

/-- Sample live handle for the C4 witness. -/
def hdlExit : Handle := { config := cfgExit, dead := false, hasProcess := true }

/-- C4 witness: a crash with code 2 runs the hook, waits, then schedules the
3000 ms restart; stop cancels it; a clean exit schedules nothing. -/
theorem c4_onExit_witness :
    (NsrvmService.onExit hdlExit 2).2 =
      [LcEvent.runHook hook1, LcEvent.wait 5, LcEvent.scheduleRestart 3000] ∧
    (NsrvmService.onExit hdlExit 2).1.restartTimer = some 3000 ∧
    (NsrvmService.stop (NsrvmService.onExit hdlExit 2).1).restartTimer = none ∧
    (∀ t, LcEvent.scheduleRestart t ∉ (NsrvmService.onExit hdlExit 0).2) :=
  ⟨(c4_onExit_restart_scheduling.1 hdlExit 2 [hook1] rfl).trans (by decide),
   (c4_onExit_restart_scheduling.2.1 hdlExit 2 (by decide)).1,
   c4_onExit_restart_scheduling.2.2.2.2.1 hdlExit 2,
   (c4_onExit_restart_scheduling.2.2.1 hdlExit).2⟩

/-- Specification predicate (from the spec text) for one API-method entry: an
object with exactly two fields, a string name of 1..32 characters and a
string description of 0..128 characters. -/
def SpecMethod (m : JsVal) : Prop :=
  ∃ nm ds : String,
    (m = .obj [("name", .str nm), ("description", .str ds)] ∨
     m = .obj [("description", .str ds), ("name", .str nm)]) ∧
    1 ≤ nm.length ∧ nm.length ≤ 32 ∧ ds.length ≤ 128

/-- Specification predicate (from the spec text) for a public-API list: an
array of at most 16 valid entries. -/
def SpecApiList (v : JsVal) : Prop :=
  ∃ ms : List JsVal, v = .arr ms ∧ ms.length ≤ 16 ∧ ∀ m ∈ ms, SpecMethod m

theorem validMethod_iff (m : JsVal) :
    NsrvmService.validMethod m = true ↔ SpecMethod m := by
  constructor
  · intro hv
    cases m with
    | obj fields =>
      unfold NsrvmService.validMethod at hv
      simp only [Bool.and_eq_true, decide_eq_true_eq] at hv
      obtain ⟨⟨hlen, hname⟩, hdesc⟩ := hv
      obtain ⟨a, b, rfl⟩ := List.length_eq_two.mp hlen
      obtain ⟨k1, v1⟩ := a
      obtain ⟨k2, v2⟩ := b
      by_cases h1 : k1 = "name"
      · subst h1
        rw [show getField [("name", v1), (k2, v2)] "name" = some v1 from rfl] at hname
        cases v1 with
        | str nm =>
          simp only [Bool.and_eq_true, decide_eq_true_eq] at hname
          by_cases h2 : k2 = "description"
          · subst h2
            rw [show getField [("name", JsVal.str nm), ("description", v2)] "description" =
              some v2 from rfl] at hdesc
            cases v2 with
            | str ds =>
              simp only [decide_eq_true_eq] at hdesc
              exact ⟨nm, ds, Or.inl rfl, hname.1, hname.2, hdesc⟩
            | undef => exact absurd hdesc (by simp)
            | null => exact absurd hdesc (by simp)
            | bool b => exact absurd hdesc (by simp)
            | num x => exact absurd hdesc (by simp)
            | arr xs => exact absurd hdesc (by simp)
            | obj fs => exact absurd hdesc (by simp)
          · rw [show getField [("name", JsVal.str nm), (k2, v2)] "description" =
                (if k2 = "description" then some v2 else none) from rfl,
              if_neg h2] at hdesc
            exact absurd hdesc (by simp)
        | undef => exact absurd hname (by simp)
        | null => exact absurd hname (by simp)
        | bool b => exact absurd hname (by simp)
        | num x => exact absurd hname (by simp)
        | arr xs => exact absurd hname (by simp)
        | obj fs => exact absurd hname (by simp)
      · rw [show getField [(k1, v1), (k2, v2)] "name" =
            (if k1 = "name" then some v1 else if k2 = "name" then some v2 else none) from
            rfl, if_neg h1] at hname
        by_cases h2 : k2 = "name"
        · subst h2
          rw [if_pos rfl] at hname
          cases v2 with
          | str nm =>
            simp only [Bool.and_eq_true, decide_eq_true_eq] at hname
            by_cases h3 : k1 = "description"
            · subst h3
              rw [show getField [("description", v1), ("name", JsVal.str nm)] "description" =
                some v1 from rfl] at hdesc
              cases v1 with
              | str ds =>
                simp only [decide_eq_true_eq] at hdesc
                exact ⟨nm, ds, Or.inr rfl, hname.1, hname.2, hdesc⟩
              | undef => exact absurd hdesc (by simp)
              | null => exact absurd hdesc (by simp)
              | bool b => exact absurd hdesc (by simp)
              | num x => exact absurd hdesc (by simp)
              | arr xs => exact absurd hdesc (by simp)
              | obj fs => exact absurd hdesc (by simp)
            · rw [show getField [(k1, v1), ("name", JsVal.str nm)] "description" =
                  (if k1 = "description" then some v1
                   else if ("name" : String) = "description" then some (JsVal.str nm) else none)
                  from rfl, if_neg h3, if_neg (by decide)] at hdesc
              exact absurd hdesc (by simp)
          | undef => exact absurd hname (by simp)
          | null => exact absurd hname (by simp)
          | bool b => exact absurd hname (by simp)
          | num x => exact absurd hname (by simp)
          | arr xs => exact absurd hname (by simp)
          | obj fs => exact absurd hname (by simp)
        · rw [if_neg h2] at hname
          exact absurd hname (by simp)
    | undef => exact absurd hv (by simp [NsrvmService.validMethod])
    | null => exact absurd hv (by simp [NsrvmService.validMethod])
    | bool b => exact absurd hv (by simp [NsrvmService.validMethod])
    | num x => exact absurd hv (by simp [NsrvmService.validMethod])
    | str s => exact absurd hv (by simp [NsrvmService.validMethod])
    | arr xs => exact absurd hv (by simp [NsrvmService.validMethod])
  · rintro ⟨nm, ds, hor, hn1, hn2, hd⟩
    rcases hor with rfl | rfl
    · unfold NsrvmService.validMethod
      dsimp only
      rw [show getField [("name", JsVal.str nm), ("description", JsVal.str ds)] "name" =
          some (JsVal.str nm) from rfl,
        show getField [("name", JsVal.str nm), ("description", JsVal.str ds)] "description" =
          some (JsVal.str ds) from rfl]
      simp only [List.length_cons, List.length_nil, Bool.and_eq_true, decide_eq_true_eq]
      exact ⟨⟨trivial, by omega, hn2⟩, hd⟩
    · unfold NsrvmService.validMethod
      dsimp only
      rw [show getField [("description", JsVal.str ds), ("name", JsVal.str nm)] "name" =
          some (JsVal.str nm) from rfl,
        show getField [("description", JsVal.str ds), ("name", JsVal.str nm)] "description" =
          some (JsVal.str ds) from rfl]
      simp only [List.length_cons, List.length_nil, Bool.and_eq_true, decide_eq_true_eq]
      exact ⟨⟨trivial, by omega, hn2⟩, hd⟩

/-- C8: validateAPI accepts exactly the arrays of at most 16 entries whose
every entry is an object with exactly two fields, a string name of length
1..32 and a string description of length 0..128; setPublicApi replaces
handle.api with the submitted list exactly when validateAPI accepts it. -/
theorem c8_validateAPI_exact :
    (∀ api, NsrvmService.validateAPI api = true ↔ SpecApiList api) ∧
    (∀ (h : Handle) api, (NsrvmService.setPublicApi h api).api =
      if NsrvmService.validateAPI api then api else h.api) := by
  constructor
  · intro api
    constructor
    · intro hv
      cases api with
      | arr ms =>
        unfold NsrvmService.validateAPI at hv
        simp only [Bool.and_eq_true, decide_eq_true_eq, List.all_eq_true] at hv
        exact ⟨ms, rfl, hv.1, fun m hm => (validMethod_iff m).mp (hv.2 m hm)⟩
      | undef => exact absurd hv (by simp [NsrvmService.validateAPI])
      | null => exact absurd hv (by simp [NsrvmService.validateAPI])
      | bool b => exact absurd hv (by simp [NsrvmService.validateAPI])
      | num x => exact absurd hv (by simp [NsrvmService.validateAPI])
      | str s => exact absurd hv (by simp [NsrvmService.validateAPI])
      | obj fs => exact absurd hv (by simp [NsrvmService.validateAPI])
    · rintro ⟨ms, rfl, hlen, hms⟩
      unfold NsrvmService.validateAPI
      simp only [Bool.and_eq_true, decide_eq_true_eq, List.all_eq_true]
      exact ⟨hlen, fun m hm => (validMethod_iff m).mpr (hms m hm)⟩
  · intro h api
    unfold NsrvmService.setPublicApi
    by_cases hv : NsrvmService.validateAPI api = true
    · rw [if_pos hv, if_pos hv]
    · rw [if_neg hv, if_neg hv]

/-- C8 witness: a concrete two-field entry is accepted, a concrete three-field
entry is rejected, and setPublicApi installs the accepted list. -/
theorem c8_validateAPI_witness :
    SpecApiList (JsVal.arr [JsVal.obj [("name", JsVal.str "m"), ("description", JsVal.str "d")]]) ∧
    ¬SpecApiList (JsVal.arr
      [JsVal.obj [("name", JsVal.str "m"), ("description", JsVal.str "d"), ("x", JsVal.null)]]) ∧
    (NsrvmService.setPublicApi hdlParent
      (JsVal.arr [JsVal.obj [("name", JsVal.str "m"), ("description", JsVal.str "d")]])).api =
      JsVal.arr [JsVal.obj [("name", JsVal.str "m"), ("description", JsVal.str "d")]] :=
  ⟨(c8_validateAPI_exact.1 _).mp rfl,
   fun hsp => Bool.false_ne_true ((c8_validateAPI_exact.1 _).mpr hsp),
   (c8_validateAPI_exact.2 hdlParent _).trans rfl⟩

/-- An api request that fails its capability check: for getApiKey the named
target is not in the caller's allowedAPI (an absent target never is), for the
five supervisor methods the literal "nsrvm" is not in the caller's
allowedAPI. -/
def DeniedApiCall (caller : Handle) (msg : Msg) : Prop :=
  (msg.method = some "getApiKey" ∧
    (∀ t, msg.serviceName = some t → caller.config.allowedAPI.contains t = false)) ∨
  ((msg.method = some "restartService" ∨ msg.method = some "stopService" ∨
    msg.method = some "startService" ∨ msg.method = some "restartServer" ∨
    msg.method = some "getServicesList") ∧
    caller.config.allowedAPI.contains "nsrvm" = false)

theorem onMessage_api_of_query_none (st : NsrvmState) (h : Handle) (msg : Msg)
    (hcmd : msg.cmd = some "api")
    (hres : (NSRVM.query st h msg).res = none)
    (hst : (NSRVM.query st h msg).st = st) :
    (NsrvmService.onMessage st h msg).sent = [] ∧
    (NsrvmService.onMessage st h msg).st = st := by
  cases hdd : h.dead
  · constructor <;>
      simp [NsrvmService.onMessage, hdd, hcmd, NsrvmService.reply, hres, hst]
  · constructor <;> simp [NsrvmService.onMessage, hdd]

/-- C9: an inbound message from a live child whose cmd is none of getConfig,
api, setPublicApi, exit, setChildServices is logged and answered with an
empty-object reply carrying the inbound reqId; state and handle are left
unchanged. -/
theorem c9_unknown_cmd_replies_empty (st : NsrvmState) (h : Handle) (msg : Msg)
    (hdead : h.dead = false) (hproc : h.hasProcess = true)
    (h1 : msg.cmd ≠ some "getConfig") (h2 : msg.cmd ≠ some "api")
    (h3 : msg.cmd ≠ some "setPublicApi") (h4 : msg.cmd ≠ some "exit")
    (h5 : msg.cmd ≠ some "setChildServices") :
    (NsrvmService.onMessage st h msg).sent = [(ReplyBody.empty, msg.reqId)] ∧
    (NsrvmService.onMessage st h msg).log =
      ["[NSRVM] Unknown message from " ++ h.config.name] ∧
    (NsrvmService.onMessage st h msg).st = st ∧
    (NsrvmService.onMessage st h msg).handle = h := by
  refine ⟨?_, ?_, ?_, ?_⟩ <;>
    simp [NsrvmService.onMessage, NsrvmService.reply, hdead, hproc, h1, h2, h3, h4, h5]

/-- Sample unknown-command message used by the C9 witness. -/
def msgUnknown : Msg := { cmd := some "bogus", reqId := 7 }

/-- C9 witness: the sample live parent answers an unknown command with an
empty reply echoing reqId 7 and logs the unknown message. -/
theorem c9_unknown_cmd_witness :
    (NsrvmService.onMessage stSample hdlParent msgUnknown).sent = [(ReplyBody.empty, 7)] ∧
    (NsrvmService.onMessage stSample hdlParent msgUnknown).log =
      ["[NSRVM] Unknown message from parent1"] :=
  ⟨(c9_unknown_cmd_replies_empty stSample hdlParent msgUnknown rfl rfl (by decide)
      (by decide) (by decide) (by decide) (by decide)).1,
   ((c9_unknown_cmd_replies_empty stSample hdlParent msgUnknown rfl rfl (by decide)
      (by decide) (by decide) (by decide) (by decide)).2.1).trans rfl⟩

/-- C10: an api message whose method is none of the six control-plane methods
yields an undefined query result, leaves the state unchanged, logs nothing,
and — unlike an unknown cmd — sends no reply at all, so the caller resolves
only by timeout. -/
theorem c10_unknown_method_no_reply (st : NsrvmState) (h : Handle) (msg : Msg)
    (hcmd : msg.cmd = some "api")
    (m1 : msg.method ≠ some "getApiKey") (m2 : msg.method ≠ some "restartService")
    (m3 : msg.method ≠ some "stopService") (m4 : msg.method ≠ some "startService")
    (m5 : msg.method ≠ some "restartServer") (m6 : msg.method ≠ some "getServicesList") :
    (NSRVM.query st h msg).res = none ∧
    (NSRVM.query st h msg).st = st ∧
    (NSRVM.query st h msg).log = [] ∧
    (NsrvmService.onMessage st h msg).sent = [] ∧
    (NsrvmService.onMessage st h msg).st = st := by
  have hq : NSRVM.query st h msg = { res := none, log := [], st := st, exited := false } := by
    simp [NSRVM.query, m1, m2, m3, m4, m5, m6]
  obtain ⟨hsent, hst⟩ := onMessage_api_of_query_none st h msg hcmd
    (by rw [hq]) (by rw [hq])
  exact ⟨by rw [hq], by rw [hq], by rw [hq], hsent, hst⟩

/-- Sample api message with an unrecognised method, used by the C10 witness. -/
def msgUnknownMethod : Msg := { cmd := some "api", method := some "frobnicate", reqId := 9 }

/-- C10 witness: the unknown method yields no result and no reply for the
sample live parent. -/
theorem c10_unknown_method_witness :
    (NSRVM.query stSample hdlParent msgUnknownMethod).res = none ∧
    (NsrvmService.onMessage stSample hdlParent msgUnknownMethod).sent = [] :=
  ⟨(c10_unknown_method_no_reply stSample hdlParent msgUnknownMethod rfl (by decide)
      (by decide) (by decide) (by decide) (by decide) (by decide)).1,
   (c10_unknown_method_no_reply stSample hdlParent msgUnknownMethod rfl (by decide)
      (by decide) (by decide) (by decide) (by decide) (by decide)).2.2.2.1⟩

/-- C2 (amended): an api request failing its capability check yields no query
result, leaves the supervisor state unchanged, does not exit, and sends no
reply back to the caller (which therefore resolves only by timeout) — so the
target's apiKey is never transmitted; the denial is logged for getApiKey,
while denials of the five nsrvm-gated methods emit no log line. -/
theorem c2_denied_api_no_reply (st : NsrvmState) (caller : Handle) (msg : Msg)
    (hd : DeniedApiCall caller msg) (hcmd : msg.cmd = some "api") :
    (NSRVM.query st caller msg).res = none ∧
    (NSRVM.query st caller msg).st = st ∧
    (NSRVM.query st caller msg).exited = false ∧
    (NsrvmService.onMessage st caller msg).sent = [] ∧
    (NsrvmService.onMessage st caller msg).st = st ∧
    (msg.method = some "getApiKey" →
      (NSRVM.query st caller msg).log =
        ["[NSRVM] getApiKeyQuery by " ++ caller.config.name ++ " for " ++
          (msg.serviceName.getD "undefined") ++ " failed: access denied"]) ∧
    (msg.method ≠ some "getApiKey" → (NSRVM.query st caller msg).log = []) := by
  have hq : (NSRVM.query st caller msg).res = none ∧
      (NSRVM.query st caller msg).st = st ∧
      (NSRVM.query st caller msg).exited = false ∧
      (msg.method = some "getApiKey" →
        (NSRVM.query st caller msg).log =
          ["[NSRVM] getApiKeyQuery by " ++ caller.config.name ++ " for " ++
            (msg.serviceName.getD "undefined") ++ " failed: access denied"]) ∧
      (msg.method ≠ some "getApiKey" → (NSRVM.query st caller msg).log = []) := by
    rcases hd with ⟨hm, hperm⟩ | ⟨hm5, hn⟩
    · have hguard : (match msg.serviceName with
          | some t => NSRVM.checkPermissions caller t
          | none => false) = false := by
        cases hsn : msg.serviceName with
        | none => rfl
        | some t => exact hperm t hsn
      refine ⟨?_, ?_, ?_, ?_, ?_⟩ <;>
        simp [NSRVM.query, hm, hguard]
    · have hn' : "nsrvm" ∉ caller.config.allowedAPI := by
        simpa using hn
      rcases hm5 with hm | hm | hm | hm | hm <;>
        (refine ⟨?_, ?_, ?_, ?_, ?_⟩ <;>
          simp [NSRVM.query, hm, NSRVM.checkPermissions, hn'])
  obtain ⟨hsent, hst⟩ := onMessage_api_of_query_none st caller msg hcmd hq.1 hq.2.1
  exact ⟨hq.1, hq.2.1, hq.2.2.1, hsent, hst, hq.2.2.2.1, hq.2.2.2.2⟩

/-- Sample caller without any capability and a denied restartService request. -/
def callerNoPerm : Handle :=
  { config := { name := "x", apiPort := 9, allowedAPI := [] }
  , dead := false, hasProcess := true }

/-- Sample denied control-plane message used against C2 as stated. -/
def deniedMsg : Msg := { cmd := some "api", method := some "restartService", reqId := 5 }

/-- C2 counterexample: a denied restartService call yields no result and no
reply, but the claimed denial log line is absent — the log is empty, refuting
the claim that every capability denial is logged. -/
theorem c2_denied_not_logged_counterexample :
    (NSRVM.query stSample callerNoPerm deniedMsg).res = none ∧
    (NsrvmService.onMessage stSample callerNoPerm deniedMsg).sent = [] ∧
    (NSRVM.query stSample callerNoPerm deniedMsg).log = [] :=
  ⟨rfl, rfl, rfl⟩

/-- C2 witness: the denied sample request satisfies DeniedApiCall, yields no
result and sends nothing. -/
theorem c2_denied_witness :
    DeniedApiCall callerNoPerm deniedMsg ∧
    (NSRVM.query stSample callerNoPerm deniedMsg).res = none ∧
    (NsrvmService.onMessage stSample callerNoPerm deniedMsg).sent = [] :=
  ⟨Or.inr ⟨Or.inl rfl, rfl⟩,
   (c2_denied_api_no_reply stSample callerNoPerm deniedMsg
      (Or.inr ⟨Or.inl rfl, rfl⟩) rfl).1,
   (c2_denied_api_no_reply stSample callerNoPerm deniedMsg
      (Or.inr ⟨Or.inl rfl, rfl⟩) rfl).2.2.2.1⟩

/-- C6 witness: the sample key of the parent survives every operation. -/
theorem c6_apiKeys_witness :
    alookup (NSRVM.runServices stSample).st.apiKeys "parent1" = some "k1" ∧
    alookup (NSRVM.stopService stSample "alpha").apiKeys "parent1" = some "k1" ∧
    alookup (NSRVM.startService stSample cfgChild).apiKeys "parent1" = some "k1" ∧
    alookup (NSRVM.setChildServices stSample hdlParent []).2.st.apiKeys "parent1" =
      some "k1" :=
  ⟨(c6_apiKeys_never_rotated stSample "parent1" "k1" rfl).1,
   (c6_apiKeys_never_rotated stSample "parent1" "k1" rfl).2.1 "alpha",
   (c6_apiKeys_never_rotated stSample "parent1" "k1" rfl).2.2.1 cfgChild,
   (c6_apiKeys_never_rotated stSample "parent1" "k1" rfl).2.2.2 hdlParent []⟩

